import Mathlib

/-!
Shallow embedding of the billing ledger core (src/billing/models.py):
accounts, invoices, charges, transactions and credit cards, their
state machines, and the per-currency Total aggregation used by
balance and invoicing queries.

Monetary amounts are exact decimals with two fractional digits in the
source; they are represented here by integers scaled to that stored
precision, which is faithful because the code never divides or rounds.

The class `Total` lives in src/billing/total.py, which is not part of
the sources provided; it is modelled from the spec (sections 3 and 4.1):
a mapping from currency code to summed amount, one entry per distinct
currency, with construction from a sequence of Money folding a
per-currency add, and subtraction merging per-currency and never
across currencies.
-/

namespace Billing

abbrev Currency := String

/-- A single-currency signed amount, mirroring moneyed.Money. -/
structure Money where
  amount : Int
  currency : Currency
deriving DecidableEq, Repr

/-- Calendar date; `created` timestamps and expiry dates are compared with
this lexicographic order, mirroring Python date comparison. -/
structure Date where
  year : Nat
  month : Nat
  day : Nat
deriving DecidableEq, Repr

/-- Python date ordering: lexicographic on (year, month, day). -/
def Date.le (a b : Date) : Bool :=
  Nat.blt a.year b.year ||
    (Nat.beq a.year b.year &&
      (Nat.blt a.month b.month ||
        (Nat.beq a.month b.month && Nat.ble a.day b.day)))

/-- django_fsm raises TransitionNotAllowed (the InvalidTransition error of
the spec) when a transition is invoked from a state outside its sources. -/
inductive TransitionError where
  | invalidTransition
deriving DecidableEq, Repr

/-- Modelled from the spec: Total (src/billing/total.py is not under src/)
maps each currency code to its summed amount, one entry per currency. -/
abbrev Total := List (Currency × Int)

/-- Lookup of the summed amount for one currency; 0 when the currency has
no entry. -/
def Total.get : Total → Currency → Int
  | [], _ => 0
  | e :: es, c => if e.1 = c then e.2 else Total.get es c

/-- The currency codes that have an entry in the Total. -/
def Total.currencies (t : Total) : List Currency :=
  t.map Prod.fst

/-- Modelled from the spec: adding one Money into a Total merges into the
entry of the same currency when present and otherwise appends a new
entry; currencies are never combined. -/
def Total.addMoney : Total → Money → Total
  | [], m => [(m.currency, m.amount)]
  | e :: es, m =>
      if e.1 = m.currency then (e.1, e.2 + m.amount) :: es
      else e :: Total.addMoney es m

/-- Modelled from the spec: Total construction from a sequence of Money
values folds the per-currency add. -/
def Total.ofMoneys (ms : List Money) : Total :=
  ms.foldl Total.addMoney []

/-- The entries of a Total viewed back as Money values. -/
def Total.entriesAsMoneys (t : Total) : List Money :=
  t.map (fun e => ⟨e.2, e.1⟩)

/-- Modelled from the spec: Total subtraction merges per-currency and never
across currencies: each currency of either operand ends with the
difference of its two summed amounts. -/
def Total.sub (t u : Total) : Total :=
  Total.ofMoneys (t.entriesAsMoneys ++ u.map (fun e => ⟨-e.2, e.1⟩))

/-- Direct per-currency sum of a list of Money: the reference value the
grouped aggregation of `total_amount` must compute. -/
def sumAmounts (ms : List Money) (c : Currency) : Int :=
  ((ms.filter (fun m => m.currency = c)).map Money.amount).sum

/-- The SQL aggregation qs.values(amount_currency).annotate(Sum(amount)):
one row per distinct currency holding the sum of that currency. -/
def aggregateByCurrency (qs : List Money) : List Money :=
  ((qs.map Money.currency).dedup).map (fun c => ⟨sumAmounts qs c, c⟩)

/-- total_amount: sums the amounts of the objects in the queryset, keeping
each currency separate, by building a Total over the grouped rows. -/
def total_amount (qs : List Money) : Total :=
  Total.ofMoneys (aggregateByCurrency qs)

/-! ### Account -/

inductive AccountStatus where
  | OPEN
  | CLOSED
deriving DecidableEq, Repr

structure Account where
  id : Nat
  created : Date
  modified : Date
  owner : Nat
  currency : Currency
  status : AccountStatus
deriving DecidableEq, Repr

/-- transition(field=status, source=OPEN, target=CLOSED); on a disallowed
source the object is left untouched and InvalidTransition is raised. -/
def Account.close (a : Account) : Account × Option TransitionError :=
  if a.status = AccountStatus.OPEN then
    ({ a with status := AccountStatus.CLOSED }, none)
  else (a, some TransitionError.invalidTransition)

/-- transition(field=status, source=CLOSED, target=OPEN). -/
def Account.reopen (a : Account) : Account × Option TransitionError :=
  if a.status = AccountStatus.CLOSED then
    ({ a with status := AccountStatus.OPEN }, none)
  else (a, some TransitionError.invalidTransition)

/-! ### Invoice -/

inductive InvoiceStatus where
  | PENDING
  | PAST_DUE
  | PAYED
  | CANCELLED
deriving DecidableEq, Repr

structure Invoice where
  id : Nat
  account : Nat
  created : Date
  modified : Date
  status : InvoiceStatus
deriving DecidableEq, Repr

/-- transition(field=status, source=PENDING, target=PAST_DUE). -/
def Invoice.mark_past_due (i : Invoice) : Invoice × Option TransitionError :=
  if i.status = InvoiceStatus.PENDING then
    ({ i with status := InvoiceStatus.PAST_DUE }, none)
  else (i, some TransitionError.invalidTransition)

/-- transition(field=status, source=[PENDING, PAST_DUE], target=PAYED). -/
def Invoice.pay (i : Invoice) : Invoice × Option TransitionError :=
  if i.status = InvoiceStatus.PENDING ∨ i.status = InvoiceStatus.PAST_DUE then
    ({ i with status := InvoiceStatus.PAYED }, none)
  else (i, some TransitionError.invalidTransition)

/-- transition(field=status, source=[PENDING, PAST_DUE], target=CANCELLED). -/
def Invoice.cancel (i : Invoice) : Invoice × Option TransitionError :=
  if i.status = InvoiceStatus.PENDING ∨ i.status = InvoiceStatus.PAST_DUE then
    ({ i with status := InvoiceStatus.CANCELLED }, none)
  else (i, some TransitionError.invalidTransition)

/-! ### Charge -/

structure Charge where
  id : Nat
  created : Date
  modified : Date
  account : Nat
  invoice : Option Nat
  amount : Money
  ad_hoc_label : String
  product_code : String
deriving DecidableEq, Repr

/-- Charge.clean: raises ValidationError unless at least one of the ad-hoc
label and the product code is non-empty (Python truthiness of strings). -/
def Charge.clean (c : Charge) : Except String Unit :=
  if c.ad_hoc_label = "" ∧ c.product_code = "" then
    Except.error "Either the ad-hoc-label or the product-code must be filled."
  else Except.ok ()

/-- The character class [A-Z0-9] of the product-code regex. -/
def isUpperOrDigit (ch : Char) : Bool :=
  (decide (65 ≤ ch.toNat) && decide (ch.toNat ≤ 90)) ||
    (decide (48 ≤ ch.toNat) && decide (ch.toNat ≤ 57))

/-- Whether a string matches the anchored regex [A-Z0-9]{4,8}. -/
def matchesProductCodeRegex (s : String) : Bool :=
  decide (4 ≤ s.length) && decide (s.length ≤ 8) && s.data.all isUpperOrDigit

/-- RegexValidator(regex=[A-Z0-9]{4,8}): fails with ValidationError when
the value does not match. Django only runs it on non-empty values of a
blank=True field. -/
def product_code_validator (s : String) : Except String Unit :=
  if matchesProductCodeRegex s then Except.ok ()
  else Except.error "Between 4 and 8 uppercase letters or digits"

/-! ### Transaction -/

structure Transaction where
  id : Nat
  created : Date
  modified : Date
  account : Nat
  success : Bool
  invoice : Option Nat
  amount : Money
  payment_method : String
  credit_card_number : String
  psp_content_type : Nat
  psp_object_id : Nat
deriving DecidableEq, Repr

/-- Transaction.type: Payment when the amount is positive, Refund when
negative, and the Python method falls through returning None at zero. -/
def Transaction.type (t : Transaction) : Option String :=
  if 0 < t.amount.amount then some "Payment"
  else if t.amount.amount < 0 then some "Refund"
  else none

/-! ### Database-level queries -/

/-- The record store the managers and queries read: every persisted Charge
and Transaction row. -/
structure Database where
  charges : List Charge
  transactions : List Transaction
deriving Repr

/-- OnlySuccessfulTransactionsManager: filter(success=True). -/
def successfulTransactions (db : Database) : List Transaction :=
  db.transactions.filter (fun t => t.success)

/-- Account.balance: Total over the successful transactions of the account
minus Total over its charges, both restricted to created ≤ as_of when
an as_of cutoff is given. -/
def Account.balance (a : Account) (db : Database) (as_of : Option Date) : Total :=
  let charges := db.charges.filter (fun c => c.account = a.id)
  let transactions := (successfulTransactions db).filter (fun t => t.account = a.id)
  match as_of with
  | some d =>
      Total.sub
        (total_amount (((transactions.filter (fun t => Date.le t.created d)).map Transaction.amount)))
        (total_amount (((charges.filter (fun c => Date.le c.created d)).map Charge.amount)))
  | none =>
      Total.sub
        (total_amount (transactions.map Transaction.amount))
        (total_amount (charges.map Charge.amount))

/-- ChargeManager.uninvoiced_with_total: the charges of the account with no
invoice reference, together with their Total. -/
def uninvoiced_with_total (db : Database) (account_id : Nat) : List Charge × Total :=
  let uc := db.charges.filter (fun c => c.invoice = none ∧ c.account = account_id)
  (uc, total_amount (uc.map Charge.amount))

/-! ### CreditCard -/

inductive CardStatus where
  | ACTIVE
  | INACTIVE
deriving DecidableEq, Repr

/-- calendar.isleap. -/
def isleap (y : Nat) : Bool :=
  decide (y % 4 = 0) && (decide (y % 100 ≠ 0) || decide (y % 400 = 0))

/-- calendar.mdays (index 0 unused). -/
def mdays : List Nat :=
  [0, 31, 28, 31, 30, 31, 30, 31, 31, 30, 31, 30, 31]

/-- Second component of calendar.monthrange: the number of days of the
month, adding the leap day for February of leap years. -/
def monthrangeDays (y m : Nat) : Nat :=
  mdays.getD m 0 + (if m = 2 ∧ isleap y then 1 else 0)

/-- compute_expiry_date: the last day of month `month` of year
2000 + two_digit_year. -/
def compute_expiry_date (two_digit_year month : Nat) : Date :=
  let year := 2000 + two_digit_year
  ⟨year, month, monthrangeDays year month⟩

structure CreditCard where
  id : Nat
  created : Date
  modified : Date
  account : Nat
  type : String
  number : String
  expiry_month : Option Nat
  expiry_year : Option Nat
  expiry_date : Date
  psp_content_type : Nat
  psp_object_id : Nat
  status : CardStatus
deriving DecidableEq, Repr

/-- transition(field=status, source=ACTIVE, target=INACTIVE). -/
def CreditCard.deactivate (c : CreditCard) : CreditCard × Option TransitionError :=
  if c.status = CardStatus.ACTIVE then
    ({ c with status := CardStatus.INACTIVE }, none)
  else (c, some TransitionError.invalidTransition)

/-- transition(field=status, source=INACTIVE, target=ACTIVE). -/
def CreditCard.reactivate (c : CreditCard) : CreditCard × Option TransitionError :=
  if c.status = CardStatus.INACTIVE then
    ({ c with status := CardStatus.ACTIVE }, none)
  else (c, some TransitionError.invalidTransition)

/-- CreditCard.is_valid: expiry_date >= as_of. The Python default of as_of
is the current date, supplied here explicitly by the caller. -/
def CreditCard.is_valid (c : CreditCard) (as_of : Date) : Bool :=
  Date.le as_of c.expiry_date

/-- CreditCard.save: recomputes expiry_date from expiry_year/expiry_month
whenever both are set, before persisting. -/
def CreditCard.save (c : CreditCard) : CreditCard :=
  match c.expiry_year, c.expiry_month with
  | some y, some m => { c with expiry_date := compute_expiry_date y m }
  | _, _ => c

/-! ### Lemmas about Total and the grouped aggregation -/

theorem Total.get_nil (c : Currency) : Total.get [] c = 0 := rfl

theorem Total.get_cons (e : Currency × Int) (es : Total) (c : Currency) :
    Total.get (e :: es) c = if e.1 = c then e.2 else Total.get es c := rfl

theorem Total.addMoney_nil (m : Money) :
    Total.addMoney [] m = [(m.currency, m.amount)] := rfl

theorem Total.addMoney_cons (e : Currency × Int) (es : Total) (m : Money) :
    Total.addMoney (e :: es) m =
      if e.1 = m.currency then (e.1, e.2 + m.amount) :: es
      else e :: Total.addMoney es m := rfl

theorem Total.currencies_nil : Total.currencies [] = [] := rfl

theorem Total.currencies_cons (e : Currency × Int) (es : Total) :
    Total.currencies (e :: es) = e.1 :: Total.currencies es := rfl

theorem Total.entriesAsMoneys_nil : Total.entriesAsMoneys [] = [] := rfl

theorem Total.entriesAsMoneys_cons (e : Currency × Int) (es : Total) :
    Total.entriesAsMoneys (e :: es) =
      (⟨e.2, e.1⟩ : Money) :: Total.entriesAsMoneys es := rfl

theorem sumAmounts_nil (c : Currency) : sumAmounts [] c = 0 := rfl

theorem sumAmounts_cons (m : Money) (ms : List Money) (c : Currency) :
    sumAmounts (m :: ms) c =
      (if m.currency = c then m.amount else 0) + sumAmounts ms c := by
  by_cases h : m.currency = c <;> simp [sumAmounts, List.filter, h]

theorem sumAmounts_append (xs ys : List Money) (c : Currency) :
    sumAmounts (xs ++ ys) c = sumAmounts xs c + sumAmounts ys c := by
  induction xs with
  | nil => rw [List.nil_append, sumAmounts_nil, zero_add]
  | cons m ms ih =>
      rw [List.cons_append, sumAmounts_cons, sumAmounts_cons, ih, add_assoc]

theorem sumAmounts_eq_zero (ms : List Money) (c : Currency)
    (h : c ∉ ms.map Money.currency) : sumAmounts ms c = 0 := by
  induction ms with
  | nil => rfl
  | cons m rest ih =>
      rw [List.map_cons, List.mem_cons, not_or] at h
      rw [sumAmounts_cons, if_neg (fun hc => h.1 hc.symm), ih h.2, add_zero]

theorem Total.get_addMoney (t : Total) (m : Money) (c : Currency) :
    Total.get (Total.addMoney t m) c =
      Total.get t c + (if m.currency = c then m.amount else 0) := by
  induction t with
  | nil =>
      rw [Total.addMoney_nil, Total.get_cons, Total.get_nil]
      simp
  | cons e es ih =>
      rw [Total.addMoney_cons]
      by_cases h1 : e.1 = m.currency
      · rw [if_pos h1, Total.get_cons, Total.get_cons]
        by_cases h2 : e.1 = c
        · rw [if_pos h2, if_pos h2, if_pos (h1 ▸ h2)]
        · rw [if_neg h2, if_neg h2, if_neg (fun hc => h2 (h1.trans hc)), add_zero]
      · rw [if_neg h1, Total.get_cons, Total.get_cons]
        by_cases h2 : e.1 = c
        · rw [if_pos h2, if_pos h2,
            if_neg (fun hc : m.currency = c => h1 (h2.trans hc.symm)), add_zero]
        · rw [if_neg h2, if_neg h2, ih]

theorem Total.get_foldl (ms : List Money) (acc : Total) (c : Currency) :
    Total.get (ms.foldl Total.addMoney acc) c =
      Total.get acc c + sumAmounts ms c := by
  induction ms generalizing acc with
  | nil => rw [List.foldl_nil, sumAmounts_nil, add_zero]
  | cons m rest ih =>
      rw [List.foldl_cons, ih, Total.get_addMoney, sumAmounts_cons, add_assoc]

theorem Total.get_ofMoneys (ms : List Money) (c : Currency) :
    Total.get (Total.ofMoneys ms) c = sumAmounts ms c := by
  rw [Total.ofMoneys, Total.get_foldl, Total.get_nil, zero_add]

theorem Total.mem_currencies_addMoney (t : Total) (m : Money) (x : Currency) :
    x ∈ Total.currencies (Total.addMoney t m) ↔
      x ∈ Total.currencies t ∨ x = m.currency := by
  induction t with
  | nil =>
      rw [Total.addMoney_nil, Total.currencies_cons, Total.currencies_nil]
      simp
  | cons e es ih =>
      rw [Total.addMoney_cons]
      by_cases h1 : e.1 = m.currency
      · rw [if_pos h1, Total.currencies_cons, Total.currencies_cons]
        simp only [List.mem_cons]
        constructor
        · rintro (h | h)
          · exact Or.inl (Or.inl h)
          · exact Or.inl (Or.inr h)
        · rintro ((h | h) | h)
          · exact Or.inl h
          · exact Or.inr h
          · exact Or.inl (by rw [h, h1])
      · rw [if_neg h1, Total.currencies_cons, Total.currencies_cons]
        simp only [List.mem_cons]
        rw [ih]
        tauto

theorem Total.nodup_addMoney (t : Total) (m : Money)
    (h : (Total.currencies t).Nodup) :
    (Total.currencies (Total.addMoney t m)).Nodup := by
  induction t with
  | nil =>
      rw [Total.addMoney_nil, Total.currencies_cons, Total.currencies_nil]
      exact List.nodup_cons.mpr ⟨List.not_mem_nil _, List.nodup_nil⟩
  | cons e es ih =>
      rw [Total.currencies_cons, List.nodup_cons] at h
      rw [Total.addMoney_cons]
      by_cases h1 : e.1 = m.currency
      · rw [if_pos h1, Total.currencies_cons]
        exact List.nodup_cons.mpr ⟨h.1, h.2⟩
      · rw [if_neg h1, Total.currencies_cons]
        refine List.nodup_cons.mpr ⟨?_, ih h.2⟩
        intro hmem
        rcases (Total.mem_currencies_addMoney es m e.1).mp hmem with hin | heq
        · exact h.1 hin
        · exact h1 heq

theorem Total.nodup_foldl (ms : List Money) (acc : Total)
    (h : (Total.currencies acc).Nodup) :
    (Total.currencies (ms.foldl Total.addMoney acc)).Nodup := by
  induction ms generalizing acc with
  | nil => exact h
  | cons m rest ih =>
      rw [List.foldl_cons]
      exact ih _ (Total.nodup_addMoney acc m h)

theorem Total.nodup_ofMoneys (ms : List Money) :
    (Total.currencies (Total.ofMoneys ms)).Nodup :=
  Total.nodup_foldl ms [] (by rw [Total.currencies_nil]; exact List.nodup_nil)

theorem Total.mem_currencies_foldl (ms : List Money) (acc : Total) (x : Currency) :
    x ∈ Total.currencies (ms.foldl Total.addMoney acc) ↔
      x ∈ Total.currencies acc ∨ x ∈ ms.map Money.currency := by
  induction ms generalizing acc with
  | nil => simp
  | cons m rest ih =>
      rw [List.foldl_cons, ih, Total.mem_currencies_addMoney]
      rw [List.map_cons, List.mem_cons]
      tauto

theorem Total.mem_currencies_ofMoneys (ms : List Money) (x : Currency) :
    x ∈ Total.currencies (Total.ofMoneys ms) ↔ x ∈ ms.map Money.currency := by
  rw [Total.ofMoneys, Total.mem_currencies_foldl, Total.currencies_nil]
  simp

theorem Total.currencies_entriesAsMoneys (t : Total) :
    (Total.entriesAsMoneys t).map Money.currency = Total.currencies t := by
  induction t with
  | nil => rfl
  | cons e es ih =>
      rw [Total.entriesAsMoneys_cons, List.map_cons, Total.currencies_cons, ih]

theorem Total.sumAmounts_entries (t : Total) (c : Currency)
    (h : (Total.currencies t).Nodup) :
    sumAmounts (Total.entriesAsMoneys t) c = Total.get t c := by
  induction t with
  | nil => rfl
  | cons e es ih =>
      rw [Total.currencies_cons, List.nodup_cons] at h
      rw [Total.entriesAsMoneys_cons, sumAmounts_cons, Total.get_cons]
      by_cases hc : e.1 = c
      · have hnot : c ∉ (Total.entriesAsMoneys es).map Money.currency := by
          rw [Total.currencies_entriesAsMoneys]
          exact fun hmem => h.1 (hc ▸ hmem)
        rw [sumAmounts_eq_zero _ _ hnot, add_zero, if_pos hc, if_pos hc]
      · rw [if_neg hc, if_neg hc, ih h.2, zero_add]

theorem sumAmounts_negMap (t : Total) (c : Currency) :
    sumAmounts (t.map (fun e => (⟨-e.2, e.1⟩ : Money))) c =
      - sumAmounts (Total.entriesAsMoneys t) c := by
  induction t with
  | nil => rw [List.map_nil, Total.entriesAsMoneys_nil, sumAmounts_nil, neg_zero]
  | cons e es ih =>
      rw [List.map_cons, Total.entriesAsMoneys_cons, sumAmounts_cons,
        sumAmounts_cons, ih]
      by_cases hc : e.1 = c
      · simp [hc]; ring
      · simp [hc]

theorem Total.get_sub (t u : Total) (c : Currency)
    (ht : (Total.currencies t).Nodup) (hu : (Total.currencies u).Nodup) :
    Total.get (Total.sub t u) c = Total.get t c - Total.get u c := by
  rw [Total.sub, Total.get_ofMoneys, sumAmounts_append, sumAmounts_negMap,
    Total.sumAmounts_entries t c ht, Total.sumAmounts_entries u c hu]
  ring

theorem sumAmounts_rowMap (cs : List Currency) (f : Currency → Int) (c : Currency)
    (h : cs.Nodup) :
    sumAmounts (cs.map (fun x => (⟨f x, x⟩ : Money))) c =
      if c ∈ cs then f c else 0 := by
  induction cs with
  | nil => rw [List.map_nil, sumAmounts_nil, if_neg (List.not_mem_nil c)]
  | cons x xs ih =>
      rw [List.nodup_cons] at h
      rw [List.map_cons, sumAmounts_cons]
      show (if x = c then f x else 0) + _ = _
      by_cases hx : x = c
      · subst hx
        rw [if_pos rfl, ih h.2, if_neg h.1, add_zero,
          if_pos (List.mem_cons_self x xs)]
      · rw [if_neg hx, ih h.2, zero_add]
        by_cases hm : c ∈ xs
        · rw [if_pos hm, if_pos (List.mem_cons_of_mem x hm)]
        · rw [if_neg hm, if_neg ?_]
          rw [List.mem_cons]
          rintro (hcx | hcx)
          · exact hx hcx.symm
          · exact hm hcx

theorem total_amount_get (qs : List Money) (c : Currency) :
    Total.get (total_amount qs) c = sumAmounts qs c := by
  rw [total_amount, Total.get_ofMoneys, aggregateByCurrency,
    sumAmounts_rowMap _ _ _ (List.nodup_dedup _)]
  by_cases hmem : c ∈ (qs.map Money.currency).dedup
  · rw [if_pos hmem]
  · rw [if_neg hmem,
      sumAmounts_eq_zero qs c (fun hc => hmem (List.mem_dedup.mpr hc))]

theorem total_amount_nodup (qs : List Money) :
    (Total.currencies (total_amount qs)).Nodup :=
  Total.nodup_ofMoneys _

theorem total_amount_mem_currencies (qs : List Money) (c : Currency) :
    c ∈ Total.currencies (total_amount qs) ↔ c ∈ qs.map Money.currency := by
  rw [total_amount, Total.mem_currencies_ofMoneys, aggregateByCurrency,
    List.map_map]
  simp [Function.comp, List.mem_dedup]

/-! ### Sample entities used to evaluate the definitions concretely -/

def exampleDate : Date := ⟨2024, 1, 1⟩

def exampleCharge (amt : Int) (cur : Currency) : Charge :=
  { id := 0, created := exampleDate, modified := exampleDate, account := 1,
    invoice := none, amount := ⟨amt, cur⟩, ad_hoc_label := "setup fee",
    product_code := "" }

def exampleTransaction (amt : Int) : Transaction :=
  { id := 0, created := exampleDate, modified := exampleDate, account := 1,
    success := true, invoice := none, amount := ⟨amt, "USD"⟩,
    payment_method := "VIS", credit_card_number := "4242",
    psp_content_type := 0, psp_object_id := 0 }

def exampleDb : Database :=
  { charges := [exampleCharge 10 "USD", exampleCharge (-3) "USD",
                exampleCharge 5 "EUR"],
    transactions := [] }

/-! ### Claim theorems -/

/-- C2: for every Invoice, pay() succeeds exactly from Pending or PastDue and
moves to Payed, cancel() succeeds exactly from Pending or PastDue and moves
to Cancelled, markPastDue() succeeds exactly from Pending and moves to
PastDue; every other source fails with InvalidTransition and leaves the
invoice (its status included) unchanged, so no transition leaves Payed or
Cancelled. Stated as the full transition table over all four source states
of an arbitrary invoice, which covers every invoice since any invoice equals
itself with its own status written back. -/
theorem invoice_transition_table (i : Invoice) :
    Invoice.pay { i with status := InvoiceStatus.PENDING }
        = ({ i with status := InvoiceStatus.PAYED }, none)
      ∧ Invoice.pay { i with status := InvoiceStatus.PAST_DUE }
        = ({ i with status := InvoiceStatus.PAYED }, none)
      ∧ Invoice.pay { i with status := InvoiceStatus.PAYED }
        = ({ i with status := InvoiceStatus.PAYED },
            some TransitionError.invalidTransition)
      ∧ Invoice.pay { i with status := InvoiceStatus.CANCELLED }
        = ({ i with status := InvoiceStatus.CANCELLED },
            some TransitionError.invalidTransition)
      ∧ Invoice.cancel { i with status := InvoiceStatus.PENDING }
        = ({ i with status := InvoiceStatus.CANCELLED }, none)
      ∧ Invoice.cancel { i with status := InvoiceStatus.PAST_DUE }
        = ({ i with status := InvoiceStatus.CANCELLED }, none)
      ∧ Invoice.cancel { i with status := InvoiceStatus.PAYED }
        = ({ i with status := InvoiceStatus.PAYED },
            some TransitionError.invalidTransition)
      ∧ Invoice.cancel { i with status := InvoiceStatus.CANCELLED }
        = ({ i with status := InvoiceStatus.CANCELLED },
            some TransitionError.invalidTransition)
      ∧ Invoice.mark_past_due { i with status := InvoiceStatus.PENDING }
        = ({ i with status := InvoiceStatus.PAST_DUE }, none)
      ∧ Invoice.mark_past_due { i with status := InvoiceStatus.PAST_DUE }
        = ({ i with status := InvoiceStatus.PAST_DUE },
            some TransitionError.invalidTransition)
      ∧ Invoice.mark_past_due { i with status := InvoiceStatus.PAYED }
        = ({ i with status := InvoiceStatus.PAYED },
            some TransitionError.invalidTransition)
      ∧ Invoice.mark_past_due { i with status := InvoiceStatus.CANCELLED }
        = ({ i with status := InvoiceStatus.CANCELLED },
            some TransitionError.invalidTransition) :=
  ⟨rfl, rfl, rfl, rfl, rfl, rfl, rfl, rfl, rfl, rfl, rfl, rfl⟩

/-- C3: for every Account, close() succeeds exactly from Open and moves to
Closed, reopen() succeeds exactly from Closed and moves to Open; the wrong
source state fails with InvalidTransition and leaves the account (its
status included) unchanged. Stated as the full transition table over both
source states of an arbitrary account. -/
theorem account_transition_table (a : Account) :
    Account.close { a with status := AccountStatus.OPEN }
        = ({ a with status := AccountStatus.CLOSED }, none)
      ∧ Account.close { a with status := AccountStatus.CLOSED }
        = ({ a with status := AccountStatus.CLOSED },
            some TransitionError.invalidTransition)
      ∧ Account.reopen { a with status := AccountStatus.CLOSED }
        = ({ a with status := AccountStatus.OPEN }, none)
      ∧ Account.reopen { a with status := AccountStatus.OPEN }
        = ({ a with status := AccountStatus.OPEN },
            some TransitionError.invalidTransition) :=
  ⟨rfl, rfl, rfl, rfl⟩

/-- C9: for every CreditCard, deactivate moves Active to Inactive and
reactivate moves Inactive to Active; both carry no condition beyond the
transition itself, so from the transition's source state they succeed for
every card whatever its other fields hold, and from the opposite state
only the source-state check of the transition itself rejects them. -/
theorem credit_card_transition_table (c : CreditCard) :
    CreditCard.deactivate { c with status := CardStatus.ACTIVE }
        = ({ c with status := CardStatus.INACTIVE }, none)
      ∧ CreditCard.reactivate { c with status := CardStatus.INACTIVE }
        = ({ c with status := CardStatus.ACTIVE }, none)
      ∧ CreditCard.deactivate { c with status := CardStatus.INACTIVE }
        = ({ c with status := CardStatus.INACTIVE },
            some TransitionError.invalidTransition)
      ∧ CreditCard.reactivate { c with status := CardStatus.ACTIVE }
        = ({ c with status := CardStatus.ACTIVE },
            some TransitionError.invalidTransition) :=
  ⟨rfl, rfl, rfl, rfl⟩

/-- C10: every state-machine transition of the core is a no-op beyond the
status change: the entity returned by close/reopen, markPastDue/pay/cancel
and deactivate/reactivate equals the original entity with only its status
field written, so every other field keeps exactly its prior value, on
successful transitions in particular (on failed ones the entity is
returned wholly unchanged). -/
theorem transitions_only_change_status (a : Account) (i : Invoice)
    (c : CreditCard) :
    (Account.close a).1 = { a with status := (Account.close a).1.status }
      ∧ (Account.reopen a).1 = { a with status := (Account.reopen a).1.status }
      ∧ (Invoice.mark_past_due i).1
          = { i with status := (Invoice.mark_past_due i).1.status }
      ∧ (Invoice.pay i).1 = { i with status := (Invoice.pay i).1.status }
      ∧ (Invoice.cancel i).1 = { i with status := (Invoice.cancel i).1.status }
      ∧ (CreditCard.deactivate c).1
          = { c with status := (CreditCard.deactivate c).1.status }
      ∧ (CreditCard.reactivate c).1
          = { c with status := (CreditCard.reactivate c).1.status } :=
  ⟨by unfold Account.close; split <;> rfl,
   by unfold Account.reopen; split <;> rfl,
   by unfold Invoice.mark_past_due; split <;> rfl,
   by unfold Invoice.pay; split <;> rfl,
   by unfold Invoice.cancel; split <;> rfl,
   by unfold CreditCard.deactivate; split <;> rfl,
   by unfold CreditCard.reactivate; split <;> rfl⟩

/-- C7: for every Transaction, the derived type is Payment when the amount
is strictly positive, Refund when strictly negative, and absent (None,
with no error) when the amount is exactly zero. -/
theorem transaction_type_sign (t : Transaction) :
    (0 < t.amount.amount → Transaction.type t = some "Payment")
      ∧ (t.amount.amount < 0 → Transaction.type t = some "Refund")
      ∧ (t.amount.amount = 0 → Transaction.type t = none) :=
  ⟨fun h => by rw [Transaction.type, if_pos h],
   fun h => by rw [Transaction.type, if_neg (by omega), if_pos h],
   fun h => by rw [Transaction.type, if_neg (by omega), if_neg (by omega)]⟩

/-- Witness for C7: the three sign cases evaluated on concrete
transactions of amounts 5, -5 and 0. -/
theorem transaction_type_sign_witness :
    Transaction.type (exampleTransaction 5) = some "Payment"
      ∧ Transaction.type (exampleTransaction (-5)) = some "Refund"
      ∧ Transaction.type (exampleTransaction 0) = none :=
  ⟨(transaction_type_sign (exampleTransaction 5)).1 (by decide),
   (transaction_type_sign (exampleTransaction (-5))).2.1 (by decide),
   (transaction_type_sign (exampleTransaction 0)).2.2 (by decide)⟩

/-- C4: Charge.clean fails with the ValidationError exactly when both the
ad-hoc label and the product code are empty, and succeeds as soon as one
of the two is non-empty; independently, the field validator accepts a
product code exactly when it is 4 to 8 characters long and every
character is an uppercase letter or a digit (Django skips this validator
on the empty value of the blank field). -/
theorem charge_validation_spec (ch : Charge) (s : String) :
    (Charge.clean ch
        = Except.error
            "Either the ad-hoc-label or the product-code must be filled."
      ↔ (ch.ad_hoc_label = "" ∧ ch.product_code = ""))
      ∧ ((ch.ad_hoc_label ≠ "" ∨ ch.product_code ≠ "")
          → Charge.clean ch = Except.ok ())
      ∧ (product_code_validator s = Except.ok ()
          ↔ (4 ≤ s.length ∧ s.length ≤ 8
              ∧ ∀ c ∈ s.data, isUpperOrDigit c = true)) := by
  refine ⟨?_, ?_, ?_⟩
  · by_cases h : ch.ad_hoc_label = "" ∧ ch.product_code = "" <;>
      simp [Charge.clean, h]
  · intro h
    have hne : ¬ (ch.ad_hoc_label = "" ∧ ch.product_code = "") := by tauto
    rw [Charge.clean, if_neg hne]
  · by_cases h : matchesProductCodeRegex s = true
    · rw [product_code_validator, if_pos h]
      rw [matchesProductCodeRegex] at h
      simp only [Bool.and_eq_true, decide_eq_true_eq, List.all_eq_true] at h
      simp only [true_iff]
      exact ⟨h.1.1, h.1.2, h.2⟩
    · rw [product_code_validator, if_neg h]
      rw [matchesProductCodeRegex] at h
      simp only [Bool.and_eq_true, decide_eq_true_eq, List.all_eq_true] at h
      constructor
      · intro hc
        exact Except.noConfusion hc
      · intro hc
        exact absurd ⟨⟨hc.1, hc.2.1⟩, hc.2.2⟩ h

/-- Witness for C4: a charge with a non-empty label passes clean, a charge
with label and product code both empty fails it, and the validator accepts
the concrete code AB12 and rejects abc. -/
theorem charge_validation_spec_witness :
    Charge.clean (exampleCharge 10 "USD") = Except.ok ()
      ∧ (Charge.clean
            { exampleCharge 10 "USD" with ad_hoc_label := "", product_code := "" }
          = Except.error
              "Either the ad-hoc-label or the product-code must be filled.")
      ∧ product_code_validator "AB12" = Except.ok ()
      ∧ product_code_validator "abc" ≠ Except.ok () :=
  ⟨(charge_validation_spec (exampleCharge 10 "USD") "AB12").2.1
      (Or.inl (by decide)),
   (charge_validation_spec
        { exampleCharge 10 "USD" with ad_hoc_label := "", product_code := "" }
        "AB12").1.mpr ⟨rfl, rfl⟩,
   (charge_validation_spec (exampleCharge 10 "USD") "AB12").2.2.mpr
      (by decide),
   fun h =>
     absurd ((charge_validation_spec (exampleCharge 10 "USD") "abc").2.2.mp h).1
       (by decide)⟩

/-- C6: saving a CreditCard always recomputes the stored expiry date from
the set month and two-digit year, whatever stale value the field held, so
it equals the last calendar day of month M in year 2000+Y as produced by
compute_expiry_date; isValid at an explicit asOf holds exactly when the
expiry date is at least asOf; concretely, month 2 of year 24 yields
2024-02-29 (leap year), valid as of 2024-02-29 and no longer valid as of
2024-03-01. -/
theorem credit_card_expiry_spec (c : CreditCard) (y m : Nat) (d : Date) :
    CreditCard.save { c with expiry_year := some y, expiry_month := some m }
        = { c with expiry_year := some y, expiry_month := some m,
                   expiry_date := compute_expiry_date y m }
      ∧ (CreditCard.is_valid c d = true ↔ Date.le d c.expiry_date = true)
      ∧ compute_expiry_date 24 2 = ⟨2024, 2, 29⟩
      ∧ CreditCard.is_valid
          (CreditCard.save
            { c with expiry_year := some 24, expiry_month := some 2 })
          ⟨2024, 2, 29⟩ = true
      ∧ CreditCard.is_valid
          (CreditCard.save
            { c with expiry_year := some 24, expiry_month := some 2 })
          ⟨2024, 3, 1⟩ = false :=
  ⟨rfl, Iff.rfl, by decide, rfl, rfl⟩

/-! ### Filter-chain lemmas relating the query compositions of the source
to single filters with conjoined conditions -/

theorem txns_filter_chain (l : List Transaction) (aid : Nat) (d : Date) :
    ((l.filter (fun t => t.success)).filter (fun t => t.account = aid)).filter
        (fun t => Date.le t.created d) =
      l.filter (fun t => t.success ∧ t.account = aid ∧ Date.le t.created d) := by
  rw [List.filter_filter, List.filter_filter]
  apply List.filter_congr
  intro x _
  by_cases hs : x.success = true <;> by_cases ha : x.account = aid <;>
    by_cases hd : Date.le x.created d = true <;> simp [hs, ha, hd]

theorem txns_filter_chain_all (l : List Transaction) (aid : Nat) :
    (l.filter (fun t => t.success)).filter (fun t => t.account = aid) =
      l.filter (fun t => t.success ∧ t.account = aid) := by
  rw [List.filter_filter]
  apply List.filter_congr
  intro x _
  by_cases hs : x.success = true <;> by_cases ha : x.account = aid <;>
    simp [hs, ha]

theorem charges_filter_chain (l : List Charge) (aid : Nat) (d : Date) :
    (l.filter (fun c => c.account = aid)).filter
        (fun c => Date.le c.created d) =
      l.filter (fun c => c.account = aid ∧ Date.le c.created d) := by
  rw [List.filter_filter]
  apply List.filter_congr
  intro x _
  by_cases ha : x.account = aid <;>
    by_cases hd : Date.le x.created d = true <;> simp [ha, hd]

/-- C1: for every account, database and currency, balance with a cutoff
equals, per currency, the sum over the account's successful transactions
created no later than the cutoff minus the sum over the account's charges
created no later than the cutoff; balance without a cutoff is the same
with no time restriction. -/
theorem account_balance_spec (a : Account) (db : Database) (d : Date)
    (c : Currency) :
    (Total.get (Account.balance a db (some d)) c =
        sumAmounts
          ((db.transactions.filter
              (fun t => t.success ∧ t.account = a.id ∧ Date.le t.created d)).map
            Transaction.amount) c
        - sumAmounts
          ((db.charges.filter
              (fun ch => ch.account = a.id ∧ Date.le ch.created d)).map
            Charge.amount) c)
      ∧ (Total.get (Account.balance a db none) c =
        sumAmounts
          ((db.transactions.filter
              (fun t => t.success ∧ t.account = a.id)).map
            Transaction.amount) c
        - sumAmounts
          ((db.charges.filter (fun ch => ch.account = a.id)).map
            Charge.amount) c) := by
  constructor
  · simp only [Account.balance, successfulTransactions]
    rw [Total.get_sub _ _ _ (total_amount_nodup _) (total_amount_nodup _),
      total_amount_get, total_amount_get, txns_filter_chain,
      charges_filter_chain]
  · simp only [Account.balance, successfulTransactions]
    rw [Total.get_sub _ _ _ (total_amount_nodup _) (total_amount_nodup _),
      total_amount_get, total_amount_get, txns_filter_chain_all]

/-- C8: a transaction whose success flag is false never contributes to any
balance: adding it to the stored transactions leaves Account.balance
unchanged for every account, cutoff and currency (the balance Totals are
equal outright), because the successful-only query selects exactly the
transactions whose success flag is true. -/
theorem failed_transaction_no_balance_effect (a : Account) (db : Database)
    (as_of : Option Date) (t : Transaction) :
    Account.balance a
        ⟨db.charges, { t with success := false } :: db.transactions⟩ as_of
      = Account.balance a db as_of
    ∧ (∀ x : Transaction,
        x ∈ successfulTransactions db ↔ x ∈ db.transactions ∧ x.success = true) := by
  constructor
  · have hfil : ({ t with success := false } :: db.transactions).filter
        (fun u => u.success) = db.transactions.filter (fun u => u.success) := by
      rw [List.filter_cons]
      simp
    simp only [Account.balance, successfulTransactions, hfil]
  · intro x
    simp [successfulTransactions, List.mem_filter]

/-- C5: uninvoicedWithTotal returns exactly the uninvoiced charges of the
account, and their Total has one entry per distinct currency of those
charges, each equal to the exact sum of that currency's amounts, with no
combined cross-currency entry; concretely, charges of +10 USD, -3 USD and
+5 EUR give the Total with entries USD 7 and EUR 5 and nothing else. -/
theorem uninvoiced_with_total_spec (db : Database) (aid : Nat) :
    ((uninvoiced_with_total db aid).1
        = db.charges.filter (fun ch => ch.invoice = none ∧ ch.account = aid))
      ∧ (∀ c : Currency,
          Total.get (uninvoiced_with_total db aid).2 c
            = sumAmounts ((uninvoiced_with_total db aid).1.map Charge.amount) c)
      ∧ (Total.currencies (uninvoiced_with_total db aid).2).Nodup
      ∧ (∀ c : Currency,
          c ∈ Total.currencies (uninvoiced_with_total db aid).2 ↔
            c ∈ ((uninvoiced_with_total db aid).1.map Charge.amount).map
                  Money.currency)
      ∧ Total.get (uninvoiced_with_total exampleDb 1).2 "USD" = 7
      ∧ Total.get (uninvoiced_with_total exampleDb 1).2 "EUR" = 5
      ∧ Total.currencies (uninvoiced_with_total exampleDb 1).2
          = ["USD", "EUR"] := by
  refine ⟨rfl, ?_, ?_, ?_, by decide, by decide, by decide⟩
  · intro c
    exact total_amount_get _ c
  · exact total_amount_nodup _
  · intro c
    exact total_amount_mem_currencies _ c

end Billing
